import Mathlib

/-!
Verification of the next-on-fleek build pipeline core against its design
specification.  The repository's `src/` tree contains the orchestration
entry point (`buildApplication.ts` / `prepareAndBuildWorker`); the pipeline
components it invokes (ConfigResolver, StaticAssetCollector,
FunctionProcessor, ChunkDeduplicator, RouteTableBuilder) are not part of
the provided sources, so they are modelled here from the specification and
the orchestrator's call structure.
-/

namespace NextOnFleek

/-- Runtime kind of a function, per the FunctionProcessor classification:
edge-capable, prerendered, or unsupported. -/
inductive RuntimeKind
  | edge
  | prerendered
  | unsupported
deriving DecidableEq, Repr

/-- Route variant tags of the routing configuration: rewrite, redirect,
header-injection, filesystem-fallback, miss. -/
inductive RouteKind
  | rewrite
  | redirect
  | headerInjection
  | filesystemFallback
  | miss
deriving DecidableEq, Repr

/-- Modelled from the spec: a validated Route rule (missing from src/,
only its consumer `prepareAndBuildWorker` is present).  A tagged variant
with a source match pattern, optional destination/status/header payload,
and a flag indicating whether matching should proceed to subsequent rules
after this one fires.  Source patterns are modelled as literal path
patterns (the spec's claims only concern literal patterns). -/
structure Route where
  kind : RouteKind
  srcPattern : String
  dest : Option String
  status : Option Nat
  headers : List (String × String)
  continueFlag : Bool
deriving DecidableEq, Repr

/-- Modelled from the spec: the validated build configuration, a schema
version and an ordered sequence of route rules, immutable once loaded. -/
structure BuildConfig where
  version : Nat
  routes : List Route
deriving DecidableEq, Repr

/-- Modelled from the spec: one static asset, `path ↦ content identity`.
The path is the routing key. -/
structure StaticAsset where
  path : String
  contentHash : Nat
  byteSize : Nat
deriving DecidableEq, Repr

/-- A content-identified unit of code (a dependency chunk candidate);
bytes are modelled as a list of naturals. -/
structure CodeUnit where
  content : List Nat
deriving DecidableEq, Repr

/-- Modelled from the spec: a per-function descriptor produced by the
FunctionProcessor.  `privateUnits` are the function's private dependency
code units (dedup candidates); `chunkRefs` are non-owning references into
the shared chunk table, filled in by the ChunkDeduplicator. -/
structure FunctionDescriptor where
  name : String
  path : String
  runtimeKind : RuntimeKind
  entryCode : List Nat
  privateUnits : List CodeUnit
  chunkRefs : List (List Nat)
deriving DecidableEq, Repr

/-- Modelled from the spec: a shared chunk.  Its id is the content hash;
the hash is modelled as the byte content itself, which is faithful to the
spec's assumption that the hash space is effectively collision-free and
that chunk identity is a pure function of content. -/
structure Chunk where
  id : List Nat
  byteContent : List Nat
  referencedBy : List String
deriving DecidableEq, Repr

/-! ## ChunkDeduplicator (modelled from the spec, §4.4) -/

/-- Names of the functions whose private units contain the given code
unit (the would-be referencer set of its chunk). -/
def unitReferencers (fns : List FunctionDescriptor) (c : CodeUnit) : List String :=
  (fns.filter (fun f => decide (c ∈ f.privateUnits))).map FunctionDescriptor.name

/-- All dedup candidate units of the descriptor set. -/
def allUnits (fns : List FunctionDescriptor) : List CodeUnit :=
  (fns.map FunctionDescriptor.privateUnits).flatten

/-- Modelled from the spec: the candidate units referenced by two or more
functions — exactly these are hoisted into shared chunks; groups
referenced by exactly one function remain private. -/
def sharedUnits (fns : List FunctionDescriptor) : List CodeUnit :=
  (allUnits fns).dedup.filter (fun c => decide (2 ≤ (unitReferencers fns c).length))

/-- Modelled from the spec: materialize one Chunk per shared unit; the id
is the content hash and the referencer set lists every function holding a
byte-identical private copy. -/
def dedupChunks (fns : List FunctionDescriptor) : List Chunk :=
  (sharedUnits fns).map (fun c =>
    { id := c.content, byteContent := c.content, referencedBy := unitReferencers fns c })

/-- Modelled from the spec: rewrite one descriptor, replacing each private
unit that was hoisted by a reference to the shared chunk's id. -/
def rewriteDescriptor (shared : List CodeUnit) (f : FunctionDescriptor) :
    FunctionDescriptor :=
  { f with
    privateUnits := f.privateUnits.filter (fun c => decide (c ∉ shared)),
    chunkRefs :=
      (f.privateUnits.filter (fun c => decide (c ∈ shared))).map CodeUnit.content }

/-- Result of the dedup phase: the rewritten descriptor set and the shared
chunk set. -/
structure DedupResult where
  descriptors : List FunctionDescriptor
  chunks : List Chunk
deriving DecidableEq, Repr

/-- Modelled from the spec: the ChunkDeduplicator.  If dedup is disabled
it is a no-op pass-through (every function keeps its private copy);
otherwise units shared by two or more functions are hoisted into chunks
and every referencing descriptor is rewritten. -/
def chunkDeduplicator (disableDedup : Bool) (fns : List FunctionDescriptor) :
    DedupResult :=
  match disableDedup with
  | true => { descriptors := fns, chunks := [] }
  | false =>
    { descriptors := fns.map (rewriteDescriptor (sharedUnits fns)),
      chunks := dedupChunks fns }

/-! ## FunctionProcessor (modelled from the spec, §4.3) -/

/-- A raw per-function directory as found in the intermediate output: a
manifest-declared runtime kind, entry code and dependency code units. -/
structure RawFunction where
  name : String
  path : String
  runtimeKind : RuntimeKind
  entryCode : List Nat
  depUnits : List CodeUnit
deriving DecidableEq, Repr

/-- Descriptor built from a supported raw function, before dedup: every
dependency unit is still a private copy. -/
def toDescriptor (r : RawFunction) : FunctionDescriptor :=
  { name := r.name, path := r.path, runtimeKind := r.runtimeKind,
    entryCode := r.entryCode, privateUnits := r.depUnits, chunkRefs := [] }

/-- Result of processing the functions directory, mirroring the
`ProcessedVercelFunctions` value consumed by `prepareAndBuildWorker`:
the prerendered and edge descriptor subsets, the shared chunk set, and
the names of functions skipped because their runtime kind is
unsupported. -/
structure ProcessedFunctions where
  prerenderedFunctions : List FunctionDescriptor
  edgeFunctions : List FunctionDescriptor
  chunks : List Chunk
  invalidFunctions : List String
deriving DecidableEq, Repr

/-- Modelled from the spec: `processVercelFunctions` (missing from src/,
only its call site is present).  Functions with an unsupported runtime
kind are skipped with a reported warning and the pipeline continues; the
supported ones are parsed into descriptors, deduplicated, and partitioned
into prerendered and edge subsets. -/
def processVercelFunctions (disableDedup : Bool) (raw : List RawFunction) :
    ProcessedFunctions :=
  let supported := raw.filter (fun r => decide (r.runtimeKind ≠ RuntimeKind.unsupported))
  let ded := chunkDeduplicator disableDedup (supported.map toDescriptor)
  { prerenderedFunctions :=
      ded.descriptors.filter (fun d => decide (d.runtimeKind = RuntimeKind.prerendered)),
    edgeFunctions :=
      ded.descriptors.filter (fun d => decide (d.runtimeKind = RuntimeKind.edge)),
    chunks := ded.chunks,
    invalidFunctions :=
      (raw.filter (fun r => decide (r.runtimeKind = RuntimeKind.unsupported))).map
        RawFunction.name }

/-! ## RouteTableBuilder (modelled from the spec, §4.5 and §5) -/

/-- Normalization used before handing results to later stages: sort by a
string key, so output is deterministic regardless of scheduling. -/
def sortByKey (key : α → String) (l : List α) : List α :=
  List.insertionSort (fun a b => key a ≤ key b) l

/-- Mark each configuration route with its reachability: a route is
unreachable when an earlier route with the same literal pattern and
`continueFlag = false` precedes it.  Unreachable routes are preserved in
the table, never silently dropped. -/
def unreachableAfter (earlier : List Route) (r : Route) : Bool :=
  earlier.any (fun e => e.srcPattern == r.srcPattern && !e.continueFlag)

/-- Walk the configuration routes in order, pairing each with its
reachability flag. -/
def markRoutes (seen : List Route) : List Route → List (Route × Bool)
  | [] => []
  | r :: rs => (r, !unreachableAfter seen r) :: markRoutes (seen ++ [r]) rs

/-- One entry of the RouteTable: a static asset, a configuration rule
(with its reachability mark), or a discovered function's
filesystem-fallback entry referenced by name and directory path. -/
inductive RouteEntry
  | staticEntry (asset : StaticAsset)
  | configEntry (r : Route) (reachable : Bool)
  | functionEntry (name : String) (fnPath : String)
deriving DecidableEq, Repr

/-- Modelled from the spec: the RouteTableBuilder merge policy.  Static
assets take precedence at their exact path, so their entries come first
(ordered by path); explicit configuration routes follow in their original
order, all preserved; discovered functions' implicit routes are appended
after all explicit rules as filesystem-fallback entries, normalized by
function path. -/
def buildRouteTable (cfg : BuildConfig) (assets : List StaticAsset)
    (prerendered edgeFns : List FunctionDescriptor) : List RouteEntry :=
  (sortByKey StaticAsset.path assets).map RouteEntry.staticEntry
    ++ (markRoutes [] cfg.routes).map (fun rb => RouteEntry.configEntry rb.1 rb.2)
    ++ (sortByKey Prod.snd
          ((prerendered ++ edgeFns).map (fun f => (f.name, f.path)))).map
        (fun np => RouteEntry.functionEntry np.1 np.2)

/-- Whether a table entry claims the given path as its final handler: a
static asset at its exact path, a configuration rule whose literal
pattern matches and whose `continueFlag` is false (a matching rule with
`continueFlag = true` fires and lets matching proceed), or a function's
implicit route at its directory path. -/
def matchesEntry (p : String) : RouteEntry → Bool
  | RouteEntry.staticEntry a => a.path == p
  | RouteEntry.configEntry r _ => r.srcPattern == p && !r.continueFlag
  | RouteEntry.functionEntry _ fnPath => fnPath == p

/-- First-match resolution over the route table. -/
def resolveTable (table : List RouteEntry) (p : String) : Option RouteEntry :=
  table.find? (matchesEntry p)

/-- Top-to-bottom evaluation of configuration routes for one path: the
first rule whose literal pattern matches and whose `continueFlag` is
false terminates evaluation and is the result. -/
def evalRoutes (rs : List Route) (p : String) : Option Route :=
  rs.find? (fun r => r.srcPattern == p && !r.continueFlag)

/-- The configuration rules preserved in a route table, in table order. -/
def configRoutesOf (table : List RouteEntry) : List Route :=
  table.filterMap (fun e =>
    match e with
    | RouteEntry.configEntry r _ => some r
    | _ => none)

/-! ## ConfigResolver (modelled from the spec, §4.1) -/

/-- A raw route-rule object as read from the configuration file, tagged
by kind. -/
structure RawRoute where
  tag : String
  srcPattern : String
  dest : Option String
  status : Option Nat
  headers : List (String × String)
  continueFlag : Bool
deriving DecidableEq, Repr

/-- The raw configuration file: an optional schema version integer and an
ordered array of raw route rules. -/
structure RawConfig where
  version : Option Nat
  rawRoutes : List RawRoute
deriving DecidableEq, Repr

/-- The pipeline error taxonomy (fatal kinds reachable in this model). -/
inductive BuildError
  | configError (msg : String)
  | assetCollisionError (path : String)
deriving DecidableEq, Repr

/-- Recognize a route variant tag; an unrecognized tag is a
configuration error. -/
def parseRouteKind : String → Option RouteKind
  | "rewrite" => some RouteKind.rewrite
  | "redirect" => some RouteKind.redirect
  | "header-injection" => some RouteKind.headerInjection
  | "filesystem-fallback" => some RouteKind.filesystemFallback
  | "miss" => some RouteKind.miss
  | _ => none

/-- Parse one raw route rule; fails on an unrecognized variant tag. -/
def parseRoute (r : RawRoute) : Option Route :=
  (parseRouteKind r.tag).map (fun k =>
    { kind := k, srcPattern := r.srcPattern, dest := r.dest,
      status := r.status, headers := r.headers, continueFlag := r.continueFlag })

/-- Modelled from the spec: the supported schema version range (the
intermediate build output schema version accepted by the pipeline). -/
def supportedVersion (v : Nat) : Bool := v == 3

/-- Parse every element of a list, failing if any single parse fails. -/
def mapOption (f : α → Option β) : List α → Option (List β)
  | [] => some []
  | x :: t =>
    match f x, mapOption f t with
    | some y, some ys => some (y :: ys)
    | _, _ => none

/-- Modelled from the spec: `getVercelConfig` / ConfigResolver (missing
from src/, only its call site is present).  Fails with `configError` if
the schema version is absent or outside the supported range, or if any
route entry has an unrecognized variant tag. -/
def configResolver (rc : RawConfig) : Except BuildError BuildConfig :=
  match rc.version with
  | none => Except.error (BuildError.configError "missing schema version")
  | some v =>
    if supportedVersion v then
      match mapOption parseRoute rc.rawRoutes with
      | some routes => Except.ok { version := v, routes := routes }
      | none => Except.error (BuildError.configError "unrecognized route variant tag")
    else Except.error (BuildError.configError "unsupported schema version")

/-! ## StaticAssetCollector (modelled from the spec, §4.2) -/

/-- First path written by two distinct static assets, if any. -/
def findCollision : List StaticAsset → Option String
  | [] => none
  | a :: rest =>
    if rest.any (fun b => b.path == a.path) then some a.path
    else findCollision rest

/-- Modelled from the spec: `getVercelStaticAssets` / StaticAssetCollector
(missing from src/, only its call site is present).  Two assets at the
same path is a fatal `assetCollisionError`; otherwise the manifest is
returned ordered by path. -/
def staticAssetCollector (raw : List StaticAsset) :
    Except BuildError (List StaticAsset) :=
  match findCollision raw with
  | some p => Except.error (BuildError.assetCollisionError p)
  | none => Except.ok (sortByKey StaticAsset.path raw)

/-! ## The orchestrator (`prepareAndBuildWorker`, from src/) -/

/-- The abstract input of one pipeline run: the raw configuration, the
raw static assets, whether the `.vercel/output/functions` directory is
present, the raw function directories, and the CLI flags threaded through
`buildApplication`. -/
structure PipelineInput where
  rawConfig : RawConfig
  rawAssets : List StaticAsset
  functionsDirPresent : Bool
  rawFunctions : List RawFunction
  disableChunksDedup : Bool
  disableWorkerMinification : Bool
deriving DecidableEq, Repr

/-- The output artifact of a successful run, with the logs and warnings
reported along the way. -/
structure BuildOutput where
  routeTable : List RouteEntry
  chunkMap : List Chunk
  assetManifest : List String
  logs : List String
  warnings : List String
deriving DecidableEq, Repr

/-- The log line emitted when the functions directory is absent
(buildApplication.ts line 128). -/
def noFunctionsLog : String :=
  "No functions detected (no functions directory generated by Vercel)."

/-- Shallow embedding of `prepareAndBuildWorker`
(buildApplication.ts lines 95-170): resolve the configuration (fatal on
failure), collect static assets, process the functions directory when it
exists (logging otherwise and leaving the processed set undefined), then
build the route table from the configuration routes, the assets, and the
prerendered/edge subsets (empty when undefined), and assemble the
output. -/
def prepareAndBuildWorker (inp : PipelineInput) : Except BuildError BuildOutput :=
  match configResolver inp.rawConfig with
  | Except.error e => Except.error e
  | Except.ok cfg =>
    match staticAssetCollector inp.rawAssets with
    | Except.error e => Except.error e
    | Except.ok assets =>
      let processed : Option ProcessedFunctions :=
        match inp.functionsDirPresent with
        | true => some (processVercelFunctions inp.disableChunksDedup inp.rawFunctions)
        | false => none
      let pre := (processed.map ProcessedFunctions.prerenderedFunctions).getD []
      let edgeFns := (processed.map ProcessedFunctions.edgeFunctions).getD []
      Except.ok
        { routeTable := buildRouteTable cfg assets pre edgeFns,
          chunkMap := (processed.map ProcessedFunctions.chunks).getD [],
          assetManifest := assets.map StaticAsset.path,
          logs :=
            match inp.functionsDirPresent with
            | true => []
            | false => [noFunctionsLog],
          warnings := (processed.map ProcessedFunctions.invalidFunctions).getD [] }

/-- Routing behavior of a pipeline run: which table entry handles each
path (none when the run aborted). -/
def resolveOutput (res : Except BuildError BuildOutput) (p : String) :
    Option (Option RouteEntry) :=
  match res with
  | Except.ok out => some (resolveTable out.routeTable p)
  | Except.error _ => none

/-- The function name a route-table entry dispatches to, when it is a
function entry. -/
def fnEntryName : RouteEntry → Option String
  | RouteEntry.functionEntry n _ => some n
  | _ => none

/-! ## Helper lemmas -/

/-- A list containing two distinct elements has length at least two. -/
lemma two_le_length_of_mem {α} [DecidableEq α] {l : List α} {a b : α}
    (ha : a ∈ l) (hb : b ∈ l) (hab : a ≠ b) : 2 ≤ l.length := by
  calc 2 = ({a, b} : Finset α).card := (Finset.card_pair hab).symm
    _ ≤ l.toFinset.card :=
        Finset.card_le_card
          (Finset.insert_subset_iff.2
            ⟨List.mem_toFinset.2 ha,
             Finset.singleton_subset_iff.2 (List.mem_toFinset.2 hb)⟩)
    _ ≤ l.length := l.toFinset_card_le

/-- The shared-unit list is duplicate-free. -/
lemma sharedUnits_nodup (fns : List FunctionDescriptor) :
    (sharedUnits fns).Nodup :=
  (List.nodup_dedup (allUnits fns)).filter _

/-! ## C2 and C3 -/

/-- C2: for every pair of function descriptors whose dependency code
units are byte-identical, after the ChunkDeduplicator runs both
descriptors reference the same Chunk id, and that Chunk's referencer set
contains both. -/
theorem dedup_shared_unit (fns : List FunctionDescriptor)
    (f g : FunctionDescriptor) (u : CodeUnit)
    (hf : f ∈ fns) (hg : g ∈ fns) (hname : f.name ≠ g.name)
    (huf : u ∈ f.privateUnits) (hug : u ∈ g.privateUnits) :
    ∃ ch ∈ (chunkDeduplicator false fns).chunks,
      ch.id = u.content ∧ f.name ∈ ch.referencedBy ∧ g.name ∈ ch.referencedBy ∧
      u.content ∈ (rewriteDescriptor (sharedUnits fns) f).chunkRefs ∧
      u.content ∈ (rewriteDescriptor (sharedUnits fns) g).chunkRefs ∧
      rewriteDescriptor (sharedUnits fns) f ∈ (chunkDeduplicator false fns).descriptors ∧
      rewriteDescriptor (sharedUnits fns) g ∈ (chunkDeduplicator false fns).descriptors := by
  have hfg : f ≠ g := fun h => hname (by rw [h])
  have hfmem : f ∈ fns.filter (fun d => decide (u ∈ d.privateUnits)) :=
    List.mem_filter.2 ⟨hf, by simpa using huf⟩
  have hgmem : g ∈ fns.filter (fun d => decide (u ∈ d.privateUnits)) :=
    List.mem_filter.2 ⟨hg, by simpa using hug⟩
  have h2 : 2 ≤ (unitReferencers fns u).length := by
    unfold unitReferencers
    rw [List.length_map]
    exact two_le_length_of_mem hfmem hgmem hfg
  have hush : u ∈ sharedUnits fns := by
    unfold sharedUnits
    refine List.mem_filter.2 ⟨List.mem_dedup.2 ?_, by simpa using h2⟩
    exact List.mem_flatten.2 ⟨f.privateUnits, List.mem_map_of_mem _ hf, huf⟩
  refine ⟨{ id := u.content, byteContent := u.content,
            referencedBy := unitReferencers fns u }, ?_, rfl, ?_, ?_, ?_, ?_, ?_, ?_⟩
  · simp only [chunkDeduplicator, dedupChunks]
    exact List.mem_map_of_mem _ hush
  · exact List.mem_map_of_mem _ hfmem
  · exact List.mem_map_of_mem _ hgmem
  · exact List.mem_map_of_mem _ (List.mem_filter.2 ⟨huf, by simpa using hush⟩)
  · exact List.mem_map_of_mem _ (List.mem_filter.2 ⟨hug, by simpa using hush⟩)
  · simp only [chunkDeduplicator]
    exact List.mem_map_of_mem _ hf
  · simp only [chunkDeduplicator]
    exact List.mem_map_of_mem _ hg

/-- Witness for C2 at a concrete input: two functions sharing the unit
`[1, 2, 3]`. -/
theorem dedup_shared_unit_witness :
    ∃ ch ∈ (chunkDeduplicator false
        [⟨"a", "/a", RuntimeKind.edge, [0], [⟨[1, 2, 3]⟩, ⟨[9]⟩], []⟩,
         ⟨"b", "/b", RuntimeKind.edge, [1], [⟨[1, 2, 3]⟩], []⟩]).chunks,
      ch.id = [1, 2, 3] ∧ "a" ∈ ch.referencedBy ∧ "b" ∈ ch.referencedBy ∧
      [1, 2, 3] ∈ (rewriteDescriptor (sharedUnits
        [⟨"a", "/a", RuntimeKind.edge, [0], [⟨[1, 2, 3]⟩, ⟨[9]⟩], []⟩,
         ⟨"b", "/b", RuntimeKind.edge, [1], [⟨[1, 2, 3]⟩], []⟩])
        ⟨"a", "/a", RuntimeKind.edge, [0], [⟨[1, 2, 3]⟩, ⟨[9]⟩], []⟩).chunkRefs ∧
      [1, 2, 3] ∈ (rewriteDescriptor (sharedUnits
        [⟨"a", "/a", RuntimeKind.edge, [0], [⟨[1, 2, 3]⟩, ⟨[9]⟩], []⟩,
         ⟨"b", "/b", RuntimeKind.edge, [1], [⟨[1, 2, 3]⟩], []⟩])
        ⟨"b", "/b", RuntimeKind.edge, [1], [⟨[1, 2, 3]⟩], []⟩).chunkRefs ∧
      rewriteDescriptor (sharedUnits
        [⟨"a", "/a", RuntimeKind.edge, [0], [⟨[1, 2, 3]⟩, ⟨[9]⟩], []⟩,
         ⟨"b", "/b", RuntimeKind.edge, [1], [⟨[1, 2, 3]⟩], []⟩])
        ⟨"a", "/a", RuntimeKind.edge, [0], [⟨[1, 2, 3]⟩, ⟨[9]⟩], []⟩ ∈
        (chunkDeduplicator false
        [⟨"a", "/a", RuntimeKind.edge, [0], [⟨[1, 2, 3]⟩, ⟨[9]⟩], []⟩,
         ⟨"b", "/b", RuntimeKind.edge, [1], [⟨[1, 2, 3]⟩], []⟩]).descriptors ∧
      rewriteDescriptor (sharedUnits
        [⟨"a", "/a", RuntimeKind.edge, [0], [⟨[1, 2, 3]⟩, ⟨[9]⟩], []⟩,
         ⟨"b", "/b", RuntimeKind.edge, [1], [⟨[1, 2, 3]⟩], []⟩])
        ⟨"b", "/b", RuntimeKind.edge, [1], [⟨[1, 2, 3]⟩], []⟩ ∈
        (chunkDeduplicator false
        [⟨"a", "/a", RuntimeKind.edge, [0], [⟨[1, 2, 3]⟩, ⟨[9]⟩], []⟩,
         ⟨"b", "/b", RuntimeKind.edge, [1], [⟨[1, 2, 3]⟩], []⟩]).descriptors :=
  dedup_shared_unit
    [⟨"a", "/a", RuntimeKind.edge, [0], [⟨[1, 2, 3]⟩, ⟨[9]⟩], []⟩,
     ⟨"b", "/b", RuntimeKind.edge, [1], [⟨[1, 2, 3]⟩], []⟩]
    ⟨"a", "/a", RuntimeKind.edge, [0], [⟨[1, 2, 3]⟩, ⟨[9]⟩], []⟩
    ⟨"b", "/b", RuntimeKind.edge, [1], [⟨[1, 2, 3]⟩], []⟩
    ⟨[1, 2, 3]⟩
    (by decide) (by decide) (by decide) (by decide) (by decide)

/-- C3: after the ChunkDeduplicator completes, every Chunk in the final
chunk set has a referencer set of size at least one (in fact at least
two), and no two distinct Chunk entries share a content hash: the list of
chunk ids is duplicate-free. -/
theorem chunk_set_wellformed (disableDedup : Bool)
    (fns : List FunctionDescriptor) :
    ((chunkDeduplicator disableDedup fns).chunks.map Chunk.id).Nodup ∧
    ∀ ch ∈ (chunkDeduplicator disableDedup fns).chunks,
      1 ≤ ch.referencedBy.length := by
  cases disableDedup with
  | true => simp [chunkDeduplicator]
  | false =>
    simp only [chunkDeduplicator]
    constructor
    · have : (dedupChunks fns).map Chunk.id =
          (sharedUnits fns).map (fun c => c.content) := by
        simp [dedupChunks]
      rw [this]
      exact (sharedUnits_nodup fns).map
        (fun c d h => by cases c; cases d; simpa using h)
    · intro ch hch
      obtain ⟨c, hc, rfl⟩ := List.mem_map.1 hch
      have h2 : 2 ≤ (unitReferencers fns c).length := by
        have := (List.mem_filter.1 hc).2
        simpa using this
      simpa using le_trans (by norm_num) h2

/-- `find?` returns the designated element when it satisfies the
predicate and is the only member doing so. -/
lemma find?_eq_some_of_unique {α} {q : α → Bool} {l : List α} {a : α}
    (ha : a ∈ l) (hq : q a = true)
    (huniq : ∀ b ∈ l, q b = true → b = a) : l.find? q = some a := by
  induction l with
  | nil => cases ha
  | cons x t ih =>
    by_cases hx : q x = true
    · rw [List.find?_cons_of_pos t hx, huniq x (List.mem_cons_self x t) hx]
    · rw [List.find?_cons_of_neg t hx]
      have hat : a ∈ t := by
        rcases List.mem_cons.1 ha with h | h
        · exact absurd (h ▸ hq) hx
        · exact h
      exact ih hat (fun b hb hqb => huniq b (List.mem_cons_of_mem _ hb) hqb)

/-- The mark-reachability pass preserves all routes in order. -/
lemma markRoutes_map_fst (seen rs : List Route) :
    (markRoutes seen rs).map Prod.fst = rs := by
  induction rs generalizing seen with
  | nil => rfl
  | cons r rs ih => simp [markRoutes, ih]

/-- Static entries contribute no configuration rule. -/
lemma configRoutesOf_static (l : List StaticAsset) :
    configRoutesOf (l.map RouteEntry.staticEntry) = [] := by
  induction l with
  | nil => rfl
  | cons a t _ => simp [configRoutesOf, List.filterMap_cons]

/-- Function entries contribute no configuration rule. -/
lemma configRoutesOf_fn (l : List (String × String)) :
    configRoutesOf (l.map (fun np => RouteEntry.functionEntry np.1 np.2)) = [] := by
  induction l with
  | nil => rfl
  | cons a t _ => simp [configRoutesOf, List.filterMap_cons]

/-- Marked configuration entries project back to their rules. -/
lemma configRoutesOf_config (l : List (Route × Bool)) :
    configRoutesOf (l.map (fun rb => RouteEntry.configEntry rb.1 rb.2)) =
      l.map Prod.fst := by
  induction l with
  | nil => rfl
  | cons a t ih => simpa [configRoutesOf, List.filterMap_cons] using ih

/-- `configRoutesOf` distributes over table concatenation. -/
lemma configRoutesOf_append (t1 t2 : List RouteEntry) :
    configRoutesOf (t1 ++ t2) = configRoutesOf t1 ++ configRoutesOf t2 :=
  List.filterMap_append t1 t2 _

/-! ## C4 and C5 -/

/-- C4: when a static asset and a configured dynamic route share the same
literal pattern, the route table resolves that path to the static
asset. -/
theorem static_precedence (cfg : BuildConfig) (assets : List StaticAsset)
    (prF edF : List FunctionDescriptor) (a : StaticAsset) (r : Route)
    (p : String)
    (hnd : (assets.map StaticAsset.path).Nodup)
    (ha : a ∈ assets) (hp : a.path = p)
    (_hr : r ∈ cfg.routes) (_hrp : r.srcPattern = p) :
    resolveTable (buildRouteTable cfg assets prF edF) p =
      some (RouteEntry.staticEntry a) := by
  unfold resolveTable buildRouteTable
  rw [List.find?_append]
  have hsorted : a ∈ sortByKey StaticAsset.path assets := by
    unfold sortByKey
    rw [List.mem_insertionSort]
    exact ha
  have hndsorted : ((sortByKey StaticAsset.path assets).map StaticAsset.path).Nodup := by
    have hperm : (sortByKey StaticAsset.path assets).Perm assets :=
      List.perm_insertionSort _ _
    exact (hperm.map StaticAsset.path).nodup_iff.2 hnd
  have hfind :
      ((sortByKey StaticAsset.path assets).map RouteEntry.staticEntry).find?
        (matchesEntry p) = some (RouteEntry.staticEntry a) := by
    rw [List.find?_map]
    have hinner : (sortByKey StaticAsset.path assets).find?
        (matchesEntry p ∘ RouteEntry.staticEntry) = some a := by
      apply find?_eq_some_of_unique hsorted
      · simp [matchesEntry, hp]
      · intro b hb hqb
        have hbp : b.path = p := by simpa [matchesEntry] using hqb
        exact List.inj_on_of_nodup_map hndsorted hb hsorted (by rw [hbp, hp])
    rw [hinner]
    rfl
  rw [List.find?_append, hfind]
  rfl

/-- Witness for C4: the asset at `/a.txt` beats the rewrite rule matching
`/a.txt`. -/
theorem static_precedence_witness :
    resolveTable
      (buildRouteTable
        ⟨3, [⟨RouteKind.rewrite, "/a.txt", some "/dest", none, [], false⟩]⟩
        [⟨"/a.txt", 5, 10⟩] [] []) "/a.txt" =
      some (RouteEntry.staticEntry ⟨"/a.txt", 5, 10⟩) :=
  static_precedence
    ⟨3, [⟨RouteKind.rewrite, "/a.txt", some "/dest", none, [], false⟩]⟩
    [⟨"/a.txt", 5, 10⟩] [] [] ⟨"/a.txt", 5, 10⟩
    ⟨RouteKind.rewrite, "/a.txt", some "/dest", none, [], false⟩ "/a.txt"
    (by decide) (by decide) (by decide) (by decide) (by decide)

/-- C5: a rule with `continueFlag = false` matching a path terminates
route evaluation for that path — the result does not depend on any rule
after it — while every later rule is still preserved in the route
table. -/
theorem continue_false_terminates (pre post1 post2 : List Route) (r : Route)
    (p : String) (hm : r.srcPattern = p) (hc : r.continueFlag = false) :
    evalRoutes (pre ++ r :: post1) p = evalRoutes (pre ++ r :: post2) p ∧
    ∀ (v : Nat) (assets : List StaticAsset)
      (prF edF : List FunctionDescriptor) (post : List Route),
      configRoutesOf (buildRouteTable ⟨v, pre ++ r :: post⟩ assets prF edF) =
        pre ++ r :: post := by
  constructor
  · unfold evalRoutes
    rw [List.find?_append, List.find?_append]
    have hfound : ∀ post : List Route,
        (r :: post).find? (fun q => q.srcPattern == p && !q.continueFlag) =
          some r := by
      intro post
      apply List.find?_cons_of_pos
      simp [hm, hc]
    rw [hfound post1, hfound post2]
  · intro v assets prF edF post
    unfold buildRouteTable
    rw [configRoutesOf_append, configRoutesOf_append, configRoutesOf_static,
      configRoutesOf_fn, configRoutesOf_config, markRoutes_map_fst]
    simp

/-- Witness for C5: a terminating rewrite at `/x` followed by differing
tails evaluates identically, and the table preserves the tail rules. -/
theorem continue_false_terminates_witness :
    (evalRoutes
        ([] ++ ⟨RouteKind.rewrite, "/x", some "/d", none, [], false⟩ ::
          [⟨RouteKind.redirect, "/x", some "/e", some 308, [], false⟩]) "/x" =
      evalRoutes
        ([] ++ ⟨RouteKind.rewrite, "/x", some "/d", none, [], false⟩ :: []) "/x") ∧
    ∀ (v : Nat) (assets : List StaticAsset)
      (prF edF : List FunctionDescriptor) (post : List Route),
      configRoutesOf
          (buildRouteTable
            ⟨v, [] ++ ⟨RouteKind.rewrite, "/x", some "/d", none, [], false⟩ :: post⟩
            assets prF edF) =
        [] ++ ⟨RouteKind.rewrite, "/x", some "/d", none, [], false⟩ :: post :=
  continue_false_terminates []
    [⟨RouteKind.redirect, "/x", some "/e", some 308, [], false⟩] []
    ⟨RouteKind.rewrite, "/x", some "/d", none, [], false⟩ "/x"
    (by decide) (by decide)

/-- Two key-sorted lists that are permutations of each other and whose
keys are duplicate-free are equal. -/
lemma eq_of_perm_of_sortedByKey {α} (key : α → String) :
    ∀ {l1 l2 : List α}, l1.Perm l2 →
      l1.Sorted (fun a b => key a ≤ key b) →
      l2.Sorted (fun a b => key a ≤ key b) →
      (l1.map key).Nodup → l1 = l2 := by
  intro l1
  induction l1 with
  | nil =>
    intro l2 hp _ _ _
    exact hp.nil_eq
  | cons a t ih =>
    intro l2 hp hs1 hs2 hnd
    cases l2 with
    | nil => exact absurd hp.symm.nil_eq (by simp)
    | cons b t2 =>
      have hnd1 : key a ∉ (t.map key) := (List.nodup_cons.1 (by simpa using hnd)).1
      have hnd2 : (t.map key).Nodup := (List.nodup_cons.1 (by simpa using hnd)).2
      have hab : a = b := by
        by_contra hne
        have hbmem : b ∈ a :: t := hp.symm.subset (List.mem_cons_self b t2)
        have hamem : a ∈ b :: t2 := hp.subset (List.mem_cons_self a t)
        have hbt : b ∈ t := by
          rcases List.mem_cons.1 hbmem with h | h
          · exact absurd h.symm hne
          · exact h
        have hat2 : a ∈ t2 := by
          rcases List.mem_cons.1 hamem with h | h
          · exact absurd h hne
          · exact h
        have hle1 : key a ≤ key b := List.rel_of_sorted_cons hs1 b hbt
        have hle2 : key b ≤ key a := List.rel_of_sorted_cons hs2 a hat2
        exact hnd1 ((le_antisymm hle2 hle1) ▸ List.mem_map_of_mem key hbt)
      subst hab
      rw [ih hp.cons_inv hs1.of_cons hs2.of_cons hnd2]

/-- Key-sorting is invariant under permutation of the input when the
keys are duplicate-free: normalization makes the result independent of
scheduling order. -/
lemma sortByKey_eq_of_perm {α} (key : α → String) {l1 l2 : List α}
    (hp : l1.Perm l2) (hnd : (l1.map key).Nodup) :
    sortByKey key l1 = sortByKey key l2 := by
  letI : IsTotal α (fun a b => key a ≤ key b) :=
    ⟨fun a b => le_total (key a) (key b)⟩
  letI : IsTrans α (fun a b => key a ≤ key b) :=
    ⟨fun a b c h1 h2 => le_trans h1 h2⟩
  unfold sortByKey
  apply eq_of_perm_of_sortedByKey key
  · exact (List.perm_insertionSort _ l1).trans
      (hp.trans (List.perm_insertionSort _ l2).symm)
  · exact List.sorted_insertionSort _ l1
  · exact List.sorted_insertionSort _ l2
  · exact ((List.perm_insertionSort _ l1).map key).nodup_iff.2 hnd

/-! ## C6 -/

/-- C6: the RouteTable is a deterministic function of the configuration
route order, the static asset paths, and the function paths — feeding the
builder any scheduling-dependent permutation of the collected assets and
function descriptors yields an identical table. -/
theorem route_table_deterministic (cfg : BuildConfig)
    (assets1 assets2 : List StaticAsset)
    (pre1 pre2 edge1 edge2 : List FunctionDescriptor)
    (hA : assets1.Perm assets2)
    (hP : pre1.Perm pre2) (hE : edge1.Perm edge2)
    (hndA : (assets1.map StaticAsset.path).Nodup)
    (hndF : ((pre1 ++ edge1).map FunctionDescriptor.path).Nodup) :
    buildRouteTable cfg assets1 pre1 edge1 =
      buildRouteTable cfg assets2 pre2 edge2 := by
  unfold buildRouteTable
  have h1 : sortByKey StaticAsset.path assets1 =
      sortByKey StaticAsset.path assets2 :=
    sortByKey_eq_of_perm _ hA hndA
  have hpairs : ((pre1 ++ edge1).map (fun f => (f.name, f.path))).Perm
      ((pre2 ++ edge2).map (fun f => (f.name, f.path))) :=
    (hP.append hE).map _
  have hndpairs :
      (((pre1 ++ edge1).map (fun f => (f.name, f.path))).map Prod.snd).Nodup := by
    rw [List.map_map]
    simpa [Function.comp] using hndF
  have h2 : sortByKey Prod.snd ((pre1 ++ edge1).map (fun f => (f.name, f.path))) =
      sortByKey Prod.snd ((pre2 ++ edge2).map (fun f => (f.name, f.path))) :=
    sortByKey_eq_of_perm _ hpairs hndpairs
  rw [h1, h2]

/-- Witness for C6: swapping the collection order of two assets and two
edge functions leaves the route table unchanged. -/
theorem route_table_deterministic_witness :
    buildRouteTable ⟨3, []⟩
      [⟨"/a.txt", 1, 1⟩, ⟨"/b.txt", 2, 2⟩]
      []
      [⟨"f1", "/f1", RuntimeKind.edge, [0], [], []⟩,
       ⟨"f2", "/f2", RuntimeKind.edge, [1], [], []⟩] =
    buildRouteTable ⟨3, []⟩
      [⟨"/b.txt", 2, 2⟩, ⟨"/a.txt", 1, 1⟩]
      []
      [⟨"f2", "/f2", RuntimeKind.edge, [1], [], []⟩,
       ⟨"f1", "/f1", RuntimeKind.edge, [0], [], []⟩] :=
  route_table_deterministic ⟨3, []⟩
    [⟨"/a.txt", 1, 1⟩, ⟨"/b.txt", 2, 2⟩]
    [⟨"/b.txt", 2, 2⟩, ⟨"/a.txt", 1, 1⟩]
    [] []
    [⟨"f1", "/f1", RuntimeKind.edge, [0], [], []⟩,
     ⟨"f2", "/f2", RuntimeKind.edge, [1], [], []⟩]
    [⟨"f2", "/f2", RuntimeKind.edge, [1], [], []⟩,
     ⟨"f1", "/f1", RuntimeKind.edge, [0], [], []⟩]
    (by decide) (by decide) (by decide) (by decide) (by decide)

/-- Rewriting a descriptor set commutes with selecting a runtime kind:
dedup never changes a descriptor's runtime kind. -/
lemma filter_kind_rewrite (shared : List CodeUnit)
    (l : List FunctionDescriptor) (k : RuntimeKind) :
    (l.map (rewriteDescriptor shared)).filter
        (fun d => decide (d.runtimeKind = k)) =
      (l.filter (fun d => decide (d.runtimeKind = k))).map
        (rewriteDescriptor shared) := by
  rw [List.filter_map]
  congr 1

/-- Dedup never changes a descriptor's name or path: the routing-relevant
projection is invariant under the rewrite. -/
lemma map_proj_rewrite (shared : List CodeUnit) (l : List FunctionDescriptor) :
    (l.map (rewriteDescriptor shared)).map (fun f => (f.name, f.path)) =
      l.map (fun f => (f.name, f.path)) := by
  rw [List.map_map]
  congr 1

/-- The name/path pairs of the processed prerendered and edge functions
do not depend on the dedup flag. -/
lemma processed_pairs_indep (dis : Bool) (raw : List RawFunction) :
    ((processVercelFunctions dis raw).prerenderedFunctions ++
        (processVercelFunctions dis raw).edgeFunctions).map
      (fun f => (f.name, f.path)) =
    ((processVercelFunctions true raw).prerenderedFunctions ++
        (processVercelFunctions true raw).edgeFunctions).map
      (fun f => (f.name, f.path)) := by
  cases dis with
  | true => rfl
  | false =>
    simp only [processVercelFunctions, chunkDeduplicator]
    rw [List.map_append, List.map_append,
      filter_kind_rewrite, filter_kind_rewrite,
      map_proj_rewrite, map_proj_rewrite]

/-! ## C1 -/

/-- C1: for every input, running the pipeline with chunk deduplication
disabled produces a bundle whose routing behavior is identical, at every
path, to the bundle produced with deduplication enabled. -/
theorem dedup_routing_equiv (inp : PipelineInput) (p : String) :
    resolveOutput
        (prepareAndBuildWorker { inp with disableChunksDedup := true }) p =
      resolveOutput
        (prepareAndBuildWorker { inp with disableChunksDedup := false }) p := by
  unfold prepareAndBuildWorker
  cases hc : configResolver inp.rawConfig with
  | error e => simp [hc, resolveOutput]
  | ok cfg =>
    cases ha : staticAssetCollector inp.rawAssets with
    | error e => simp [hc, ha, resolveOutput]
    | ok assets =>
      cases hd : inp.functionsDirPresent with
      | false => simp [hc, ha, hd, resolveOutput]
      | true =>
        simp only [hc, ha, hd, Except.bind, resolveOutput, Option.map_some,
          Option.getD_some, if_true, bind, Option.map, Option.getD]
        have htable :
            buildRouteTable cfg assets
                (processVercelFunctions false inp.rawFunctions).prerenderedFunctions
                (processVercelFunctions false inp.rawFunctions).edgeFunctions =
              buildRouteTable cfg assets
                (processVercelFunctions true inp.rawFunctions).prerenderedFunctions
                (processVercelFunctions true inp.rawFunctions).edgeFunctions := by
          unfold buildRouteTable
          rw [processed_pairs_indep false inp.rawFunctions]
        simp [htable]

/-- The collision scan succeeds exactly when the asset paths are
duplicate-free. -/
lemma findCollision_eq_none_iff (l : List StaticAsset) :
    findCollision l = none ↔ (l.map StaticAsset.path).Nodup := by
  induction l with
  | nil =>
    constructor
    · intro _
      exact List.nodup_nil
    · intro _
      rfl
  | cons a rest ih =>
    have hany : rest.any (fun b => b.path == a.path) = true ↔
        a.path ∈ rest.map StaticAsset.path := by
      constructor
      · intro ha
        obtain ⟨b, hb, hbeq⟩ := List.any_eq_true.1 ha
        exact List.mem_map.2 ⟨b, hb, by simpa using hbeq⟩
      · intro hm
        obtain ⟨b, hb, hbp⟩ := List.mem_map.1 hm
        exact List.any_eq_true.2 ⟨b, hb, by simp [hbp]⟩
    have hstep : findCollision (a :: rest) =
        if (rest.any fun b => b.path == a.path) = true then some a.path
        else findCollision rest := rfl
    by_cases h : rest.any (fun b => b.path == a.path) = true
    · have hLHS : findCollision (a :: rest) = some a.path := by
        rw [hstep, if_pos h]
      rw [hLHS]
      simp only [List.map_cons, List.nodup_cons]
      constructor
      · intro hc
        cases hc
      · intro hc
        exact absurd (hany.1 h) hc.1
    · have hLHS : findCollision (a :: rest) = findCollision rest := by
        rw [hstep, if_neg h]
      rw [hLHS, ih]
      simp only [List.map_cons, List.nodup_cons]
      constructor
      · intro hnd
        exact ⟨fun hm => h (hany.2 hm), hnd⟩
      · intro hc
        exact hc.2

/-- Parsing the route list fails as soon as one raw route has an
unrecognized variant tag. -/
lemma mapOption_parseRoute_none {l : List RawRoute}
    (h : ∃ rr ∈ l, parseRoute rr = none) : mapOption parseRoute l = none := by
  induction l with
  | nil =>
    obtain ⟨rr, hm, _⟩ := h
    cases hm
  | cons x t ih =>
    obtain ⟨rr, hm, hp⟩ := h
    rcases List.mem_cons.1 hm with heq | hmt
    · simp [mapOption, heq ▸ hp]
    · cases hx : parseRoute x with
      | none => simp [mapOption, hx]
      | some r => simp [mapOption, hx, ih ⟨rr, hmt, hp⟩]

/-! ## C8, C9, C10 -/

/-- C8: a malformed configuration — missing schema version, unsupported
schema version, or a route with an unrecognized variant tag — aborts the
pipeline with a configuration error before any output is produced: the
result is the same error whatever the static assets and functions are,
so no asset collection, function processing, or bundle assembly ever
contributes to it. -/
theorem config_error_aborts (rc : RawConfig)
    (hbad : rc.version = none ∨
      (∃ v, rc.version = some v ∧ supportedVersion v = false) ∨
      (∃ rr ∈ rc.rawRoutes, parseRoute rr = none)) :
    ∃ msg, ∀ (rawAssets : List StaticAsset) (fdp : Bool)
      (rawFns : List RawFunction) (d1 d2 : Bool),
      prepareAndBuildWorker ⟨rc, rawAssets, fdp, rawFns, d1, d2⟩ =
        Except.error (BuildError.configError msg) := by
  have hres : ∃ msg, configResolver rc =
      Except.error (BuildError.configError msg) := by
    rcases hbad with hv | ⟨v, hv, hsup⟩ | htag
    · exact ⟨"missing schema version", by simp [configResolver, hv]⟩
    · exact ⟨"unsupported schema version", by simp [configResolver, hv, hsup]⟩
    · cases hv : rc.version with
      | none => exact ⟨"missing schema version", by simp [configResolver, hv]⟩
      | some v =>
        by_cases hsup : supportedVersion v = true
        · exact ⟨"unrecognized route variant tag",
            by simp [configResolver, hv, hsup, mapOption_parseRoute_none htag]⟩
        · refine ⟨"unsupported schema version", ?_⟩
          simp only [configResolver, hv]
          rw [if_neg hsup]
  obtain ⟨msg, hres⟩ := hres
  refine ⟨msg, fun rawAssets fdp rawFns d1 d2 => ?_⟩
  unfold prepareAndBuildWorker
  rw [hres]

/-- Witness for C8: a configuration with no schema version aborts with a
configuration error regardless of the rest of the input. -/
theorem config_error_aborts_witness :
    ∃ msg, ∀ (rawAssets : List StaticAsset) (fdp : Bool)
      (rawFns : List RawFunction) (d1 d2 : Bool),
      prepareAndBuildWorker ⟨⟨none, []⟩, rawAssets, fdp, rawFns, d1, d2⟩ =
        Except.error (BuildError.configError msg) :=
  config_error_aborts ⟨none, []⟩ (Or.inl rfl)

/-- C9: two static assets at the same path abort the pipeline with an
asset-collision error; no output artifact is produced. -/
theorem asset_collision_aborts (inp : PipelineInput) (cfg : BuildConfig)
    (hcfg : configResolver inp.rawConfig = Except.ok cfg)
    (hdup : ¬ (inp.rawAssets.map StaticAsset.path).Nodup) :
    ∃ p, prepareAndBuildWorker inp =
      Except.error (BuildError.assetCollisionError p) := by
  cases hfc : findCollision inp.rawAssets with
  | none => exact absurd ((findCollision_eq_none_iff inp.rawAssets).1 hfc) hdup
  | some p =>
    refine ⟨p, ?_⟩
    unfold prepareAndBuildWorker staticAssetCollector
    rw [hcfg, hfc]

/-- Witness for C9: two assets at `/a.txt`. -/
theorem asset_collision_aborts_witness :
    ∃ p, prepareAndBuildWorker
        ⟨⟨some 3, []⟩, [⟨"/a.txt", 1, 1⟩, ⟨"/a.txt", 2, 2⟩], false, [],
          false, false⟩ =
      Except.error (BuildError.assetCollisionError p) :=
  asset_collision_aborts
    ⟨⟨some 3, []⟩, [⟨"/a.txt", 1, 1⟩, ⟨"/a.txt", 2, 2⟩], false, [], false, false⟩
    ⟨3, []⟩ rfl (by decide)

/-- C10: when the functions directory is absent the pipeline does not
fail: it logs that no functions were detected and still builds the
complete bundle from the configuration routes and static assets alone,
with empty prerendered and edge sets handed to route-table
construction. -/
theorem no_functions_dir_builds (inp : PipelineInput) (cfg : BuildConfig)
    (hcfg : configResolver inp.rawConfig = Except.ok cfg)
    (hcol : findCollision inp.rawAssets = none)
    (hfd : inp.functionsDirPresent = false) :
    prepareAndBuildWorker inp = Except.ok
      { routeTable :=
          buildRouteTable cfg (sortByKey StaticAsset.path inp.rawAssets) [] [],
        chunkMap := [],
        assetManifest :=
          (sortByKey StaticAsset.path inp.rawAssets).map StaticAsset.path,
        logs := [noFunctionsLog],
        warnings := [] } := by
  unfold prepareAndBuildWorker staticAssetCollector
  rw [hcfg, hcol, hfd]
  rfl

/-- Witness for C10: a run with no functions directory succeeds and
reports the no-functions log line. -/
theorem no_functions_dir_builds_witness :
    prepareAndBuildWorker
        ⟨⟨some 3, []⟩, [⟨"/a.txt", 1, 1⟩], false, [], false, false⟩ =
      Except.ok
        { routeTable :=
            buildRouteTable ⟨3, []⟩
              (sortByKey StaticAsset.path [⟨"/a.txt", 1, 1⟩]) [] [],
          chunkMap := [],
          assetManifest :=
            (sortByKey StaticAsset.path [⟨"/a.txt", 1, 1⟩]).map StaticAsset.path,
          logs := [noFunctionsLog],
          warnings := [] } :=
  no_functions_dir_builds
    ⟨⟨some 3, []⟩, [⟨"/a.txt", 1, 1⟩], false, [], false, false⟩
    ⟨3, []⟩ rfl rfl rfl

/-- Filtering the unsupported functions away is idempotent. -/
lemma filter_sup_idem (raw : List RawFunction) :
    (raw.filter (fun x => decide (x.runtimeKind ≠ RuntimeKind.unsupported))).filter
        (fun x => decide (x.runtimeKind ≠ RuntimeKind.unsupported)) =
      raw.filter (fun x => decide (x.runtimeKind ≠ RuntimeKind.unsupported)) := by
  rw [List.filter_filter]
  apply List.filter_congr
  intro a _
  rw [Bool.and_self]

/-- A list with the unsupported functions filtered away contains no
unsupported function. -/
lemma filter_uns_of_sup (raw : List RawFunction) :
    (raw.filter (fun x => decide (x.runtimeKind ≠ RuntimeKind.unsupported))).filter
        (fun x => decide (x.runtimeKind = RuntimeKind.unsupported)) = [] := by
  rw [List.filter_filter]
  have hfalse : ∀ a ∈ raw,
      (decide (a.runtimeKind = RuntimeKind.unsupported) &&
        decide (a.runtimeKind ≠ RuntimeKind.unsupported)) = false := by
    intro a _
    by_cases h : a.runtimeKind = RuntimeKind.unsupported <;> simp [h]
  rw [List.filter_congr hfalse]
  exact List.filter_false raw

/-- Processing only the supported functions yields the same descriptors,
chunks and route-relevant output as processing everything: the
unsupported functions contribute nothing but warnings. -/
lemma processVercelFunctions_filter (dis : Bool) (raw : List RawFunction) :
    processVercelFunctions dis
        (raw.filter (fun x => decide (x.runtimeKind ≠ RuntimeKind.unsupported))) =
      { processVercelFunctions dis raw with invalidFunctions := [] } := by
  simp only [processVercelFunctions, filter_sup_idem, filter_uns_of_sup,
    List.map_nil]

/-- Every processed descriptor (prerendered or edge) originates from a
supported raw function with the same name. -/
lemma processed_descriptor_src (dis : Bool) (raw : List RawFunction)
    (d : FunctionDescriptor)
    (hd : d ∈ (processVercelFunctions dis raw).prerenderedFunctions ++
          (processVercelFunctions dis raw).edgeFunctions) :
    ∃ x ∈ raw, x.runtimeKind ≠ RuntimeKind.unsupported ∧ x.name = d.name := by
  simp only [processVercelFunctions] at hd
  have hdd : d ∈ (chunkDeduplicator dis
      ((raw.filter (fun x => decide (x.runtimeKind ≠ RuntimeKind.unsupported))).map
        toDescriptor)).descriptors := by
    rcases List.mem_append.1 hd with hmem | hmem
    · exact (List.mem_filter.1 hmem).1
    · exact (List.mem_filter.1 hmem).1
  cases dis with
  | true =>
    simp only [chunkDeduplicator] at hdd
    obtain ⟨x, hx, rfl⟩ := List.mem_map.1 hdd
    have hmf := List.mem_filter.1 hx
    exact ⟨x, hmf.1, of_decide_eq_true hmf.2, rfl⟩
  | false =>
    simp only [chunkDeduplicator] at hdd
    obtain ⟨d0, hd0, rfl⟩ := List.mem_map.1 hdd
    obtain ⟨x, hx, rfl⟩ := List.mem_map.1 hd0
    have hmf := List.mem_filter.1 hx
    exact ⟨x, hmf.1, of_decide_eq_true hmf.2, rfl⟩

/-- Every route-table entry either carries no function name or the name
of one of the supplied descriptors. -/
lemma table_fn_names (cfg : BuildConfig) (assets : List StaticAsset)
    (pre edgeFns : List FunctionDescriptor) (e : RouteEntry)
    (he : e ∈ buildRouteTable cfg assets pre edgeFns) :
    fnEntryName e = none ∨
      ∃ d ∈ pre ++ edgeFns, fnEntryName e = some d.name := by
  unfold buildRouteTable at he
  rcases List.mem_append.1 he with h12 | h3
  · rcases List.mem_append.1 h12 with h1 | h2
    · obtain ⟨a, _, rfl⟩ := List.mem_map.1 h1
      exact Or.inl rfl
    · obtain ⟨rb, _, rfl⟩ := List.mem_map.1 h2
      exact Or.inl rfl
  · obtain ⟨np, hnp, rfl⟩ := List.mem_map.1 h3
    have hnp2 : np ∈ (pre ++ edgeFns).map (fun f => (f.name, f.path)) := by
      have hperm : (sortByKey Prod.snd
          ((pre ++ edgeFns).map (fun f => (f.name, f.path)))).Perm
          ((pre ++ edgeFns).map (fun f => (f.name, f.path))) :=
        List.perm_insertionSort _ _
      exact hperm.subset hnp
    obtain ⟨d, hdm, rfl⟩ := List.mem_map.1 hnp2
    exact Or.inr ⟨d, hdm, rfl⟩

/-! ## C7 -/

/-- C7: a function with an unsupported runtime kind does not abort the
pipeline — the run still succeeds, the function is reported as a warning,
no route-table entry dispatches to it, and the run's output is exactly
the output of the run without the unsupported functions (so its paths
fall through to whatever rule matches next). -/
theorem unsupported_fn_skipped (inp : PipelineInput) (cfg : BuildConfig)
    (r : RawFunction)
    (hcfg : configResolver inp.rawConfig = Except.ok cfg)
    (hcol : findCollision inp.rawAssets = none)
    (hfd : inp.functionsDirPresent = true)
    (hr : r ∈ inp.rawFunctions)
    (hk : r.runtimeKind = RuntimeKind.unsupported)
    (hnames : (inp.rawFunctions.map RawFunction.name).Nodup) :
    ∃ out, prepareAndBuildWorker inp = Except.ok out ∧
      r.name ∈ out.warnings ∧
      (∀ e ∈ out.routeTable, fnEntryName e ≠ some r.name) ∧
      prepareAndBuildWorker
          { inp with rawFunctions := List.filter (fun x => decide (x.runtimeKind ≠ RuntimeKind.unsupported)) inp.rawFunctions } =
        Except.ok { out with warnings := [] } := by
  have hrun : prepareAndBuildWorker inp = Except.ok
      { routeTable := buildRouteTable cfg (sortByKey StaticAsset.path inp.rawAssets)
          (processVercelFunctions inp.disableChunksDedup
            inp.rawFunctions).prerenderedFunctions
          (processVercelFunctions inp.disableChunksDedup
            inp.rawFunctions).edgeFunctions,
        chunkMap := (processVercelFunctions inp.disableChunksDedup
          inp.rawFunctions).chunks,
        assetManifest :=
          (sortByKey StaticAsset.path inp.rawAssets).map StaticAsset.path,
        logs := [],
        warnings := (processVercelFunctions inp.disableChunksDedup
          inp.rawFunctions).invalidFunctions } := by
    unfold prepareAndBuildWorker staticAssetCollector
    rw [hcfg, hcol, hfd]
    rfl
  refine ⟨_, hrun, ?_, ?_, ?_⟩
  · show r.name ∈ (processVercelFunctions inp.disableChunksDedup
      inp.rawFunctions).invalidFunctions
    simp only [processVercelFunctions]
    exact List.mem_map_of_mem _ (List.mem_filter.2 ⟨hr, by simp [hk]⟩)
  · intro e he heq
    rcases table_fn_names _ _ _ _ e he with hnone | ⟨d, hdm, hsome⟩
    · rw [heq] at hnone
      cases hnone
    · obtain ⟨x, hx, hxk, hxn⟩ :=
        processed_descriptor_src inp.disableChunksDedup inp.rawFunctions d hdm
      have hdn : d.name = r.name := Option.some.inj ((hsome.symm.trans heq))
      have hxr : x = r :=
        List.inj_on_of_nodup_map hnames hx hr (by rw [hxn, hdn])
      exact hxk (hxr ▸ hk)
  · unfold prepareAndBuildWorker staticAssetCollector
    show (match configResolver inp.rawConfig with
      | Except.error e => Except.error e
      | Except.ok cfg => _) = _
    rw [hcfg, hcol, hfd, processVercelFunctions_filter]
    rfl

/-- Witness for C7: a run containing an unsupported function `f1` next to
an edge function `f2` succeeds, warns about `f1`, routes nothing to `f1`,
and equals the run without `f1`. -/
theorem unsupported_fn_skipped_witness :
    ∃ out, prepareAndBuildWorker
        ⟨⟨some 3, []⟩, [], true,
          [⟨"f1", "/f1", RuntimeKind.unsupported, [], []⟩,
           ⟨"f2", "/f2", RuntimeKind.edge, [7], []⟩], false, false⟩ =
      Except.ok out ∧
      "f1" ∈ out.warnings ∧
      (∀ e ∈ out.routeTable, fnEntryName e ≠ some "f1") ∧
      prepareAndBuildWorker
          { (⟨⟨some 3, []⟩, [], true,
              [⟨"f1", "/f1", RuntimeKind.unsupported, [], []⟩,
               ⟨"f2", "/f2", RuntimeKind.edge, [7], []⟩], false, false⟩ :
                PipelineInput) with
            rawFunctions := List.filter (fun x => decide (x.runtimeKind ≠ RuntimeKind.unsupported))
              [⟨"f1", "/f1", RuntimeKind.unsupported, [], []⟩,
               ⟨"f2", "/f2", RuntimeKind.edge, [7], []⟩] } =
        Except.ok { out with warnings := [] } :=
  unsupported_fn_skipped
    ⟨⟨some 3, []⟩, [], true,
      [⟨"f1", "/f1", RuntimeKind.unsupported, [], []⟩,
       ⟨"f2", "/f2", RuntimeKind.edge, [7], []⟩], false, false⟩
    ⟨3, []⟩
    ⟨"f1", "/f1", RuntimeKind.unsupported, [], []⟩
    rfl rfl rfl (by decide) rfl (by decide)

end NextOnFleek
